import Mathlib

/-!
Verification development for the mindmap diagram-editing core.

The definitions below are shallow embeddings of the TypeScript sources:
machine numbers are modelled as exact rationals (reals where a square root
is taken), element identifiers as strings, and the React interaction state
as an explicit record.  Each definition names the source function it embeds.
-/

set_option autoImplicit false

namespace Mindmap

/-- The four generic diagram figure kinds (types.ts, DiagramFigureType). -/
inductive DiagramFigureType
  | rectangle
  | circle
  | cloud
  | actor
deriving DecidableEq, Repr

/-- A 2D point with exact rational coordinates. -/
structure Pos where
  x : ℚ
  y : ℚ
deriving DecidableEq, Repr

/-- A value in an element's data map: a string or a number (types.ts ElementData). -/
inductive JsVal
  | str (s : String)
  | num (q : ℚ)
deriving DecidableEq, Repr

/-- An element's data map, as an association list (types.ts ElementData). -/
abbrev ElementData := List (String × JsVal)

/-- types.ts DiagramFigure. -/
structure DiagramFigure where
  id : String
  figureType : DiagramFigureType
  position : Pos
  label : String
  data : ElementData := []
  showData : Option Bool := none
deriving DecidableEq, Repr

/-- types.ts ArrowType. -/
inductive ArrowType
  | noArrow
  | oneEnd
  | otherEnd
  | bothEnds
deriving DecidableEq, Repr

/-- types.ts DiagramArrow. -/
structure DiagramArrow where
  id : String
  sourceId : String
  targetId : String
  label : String
  arrowType : Option ArrowType := none
  data : ElementData := []
  showData : Option Bool := none
deriving DecidableEq, Repr

/-- types.ts DiagramState. -/
structure DiagramState where
  figures : List DiagramFigure
  arrows : List DiagramArrow
deriving DecidableEq, Repr

/-- A kind a parameter definition can apply to: a figure type or an arrow. -/
inductive ApplTarget
  | fig (t : DiagramFigureType)
  | arrow
deriving DecidableEq, Repr

/-- types.ts ParameterDef. -/
structure ParameterDef where
  abbr : String
  caption : String
  unit : String
  appliesTo : List ApplTarget
deriving DecidableEq, Repr

/-- constants.ts diagramParameterDefs; the list order is the object's
insertion order, which is what Object.entries iterates. -/
def diagramParameterDefs : List (String × ParameterDef) :=
  [ ("rps",
     { abbr := "RPS", caption := "Requests per second", unit := "",
       appliesTo := [.fig .rectangle, .fig .circle, .fig .cloud, .fig .actor] }),
    ("traffic",
     { abbr := "Traffic", caption := "Traffic", unit := "GBps",
       appliesTo := [.arrow] }),
    ("dau",
     { abbr := "DAU", caption := "Daily active users", unit := "",
       appliesTo := [.fig .actor] }) ]

/-- components/diagram/figures.tsx DataDisplay row construction: each
registered parameter key whose value in the element's data map is present
and not the empty string yields one row.  The appliesTo field of the
definition is not consulted here. -/
def dataDisplayRows (data : ElementData) : List (String × ParameterDef × JsVal) :=
  diagramParameterDefs.filterMap (fun kv =>
    match data.lookup kv.1 with
    | some v => if v = JsVal.str "" then none else some (kv.1, kv.2, v)
    | none => none)

/-- The overlay rows as the claim words them: additionally filtered to the
parameter keys whose appliesTo set includes the element's kind.  This
definition follows the spec text and is compared against dataDisplayRows. -/
def specOverlayRows (kind : ApplTarget) (data : ElementData) :
    List (String × ParameterDef × JsVal) :=
  diagramParameterDefs.filterMap (fun kv =>
    match data.lookup kv.1 with
    | some v =>
      if v = JsVal.str "" ∨ kind ∉ kv.2.appliesTo then none
      else some (kv.1, kv.2, v)
    | none => none)

/-- part_010 applicableParams: the edit-panel filter, which is where the
appliesTo sets are consulted. -/
def applicableParams (elementType : ApplTarget) : List (String × ParameterDef) :=
  diagramParameterDefs.filter (fun kv => decide (elementType ∈ kv.2.appliesTo))

/-! ### The metric formatter (components/diagram/figures.tsx formatNumber) -/

/-- The shape of a rendered metric label.  The grouped constructor stands for
number.toLocaleString with thousands grouping; orderOfMagnitude renders
as a signed power of ten with no mantissa digit; mantissaTimesPow carries the
mantissa in tenths (so tenths 23 renders as 2.3).  zeroFallback is the
defensive "0.0" branch of the source. -/
inductive FormattedNumber
  | grouped (v : ℚ)
  | zeroFallback
  | orderOfMagnitude (negative : Bool) (exponent : ℕ)
  | mantissaTimesPow (negative : Bool) (tenths : ℕ) (exponent : ℕ)
deriving DecidableEq, Repr

/-- components/diagram/figures.tsx formatNumber, on numeric input.
Math.floor(Math.log10 |v|) is computed as Nat.log 10 of the natural floor,
which agrees with it whenever |v| ≥ 1 (here |v| ≥ 1,000,000); toFixed(1)
rounds half away from zero, which for the positive mantissa is the floor of
ten times the mantissa plus one half. -/
def formatNumber (v : ℚ) : FormattedNumber :=
  if 1000000 ≤ |v| then
    if v = 0 then FormattedNumber.zeroFallback
    else
      let e : ℕ := Nat.log 10 ⌊|v|⌋₊
      let m : ℚ := |v| / 10 ^ e
      if m < 3/2 then FormattedNumber.orderOfMagnitude (decide (v < 0)) e
      else
        let tenths : ℕ := ⌊m * 10 + 1/2⌋₊
        if tenths = 100 then FormattedNumber.mantissaTimesPow (decide (v < 0)) 10 (e + 1)
        else FormattedNumber.mantissaTimesPow (decide (v < 0)) tenths e
  else FormattedNumber.grouped v

/-! ### State update operations -/

/-- part_010 deleteSelected, figure branch: drop the figure and every arrow
referencing it. -/
def deleteFigureOp (st : DiagramState) (id : String) : DiagramState :=
  { figures := st.figures.filter (fun f => f.id != id),
    arrows := st.arrows.filter (fun a => a.sourceId != id && a.targetId != id) }

/-- A C4 node; all six element kinds share these fields for our purposes. -/
structure C4Element where
  id : String
  label : String
  description : String
  position : Pos
deriving DecidableEq, Repr

/-- types.ts C4Relationship. -/
structure C4Relationship where
  id : String
  sourceId : String
  targetId : String
  label : String
  technology : String := ""
deriving DecidableEq, Repr

/-- types.ts C4DiagramState: six parallel element arrays plus relationships. -/
structure C4DiagramState where
  persons : List C4Element
  softwareSystems : List C4Element
  databases : List C4Element
  folders : List C4Element
  applications : List C4Element
  webApplications : List C4Element
  relationships : List C4Relationship
deriving DecidableEq, Repr

/-- The selected-element kind tag used by the C4 editor. -/
inductive C4SelKind
  | person
  | system
  | database
  | folder
  | application
  | webApplication
  | relationship
deriving DecidableEq, Repr

/-- C4SystemContextDiagramEditor.tsx deleteSelected: filter the selected
kind's array by id, then (for a non-relationship selection) cascade-filter
the relationships referencing the id. -/
def deleteSelectedC4 (s : C4DiagramState) (kind : C4SelKind) (id : String) :
    C4DiagramState :=
  let persons := if kind = .person then s.persons.filter (fun p => p.id != id) else s.persons
  let softwareSystems :=
    if kind = .system then s.softwareSystems.filter (fun x => x.id != id) else s.softwareSystems
  let databases := if kind = .database then s.databases.filter (fun x => x.id != id) else s.databases
  let folders := if kind = .folder then s.folders.filter (fun x => x.id != id) else s.folders
  let applications :=
    if kind = .application then s.applications.filter (fun x => x.id != id) else s.applications
  let webApplications :=
    if kind = .webApplication then s.webApplications.filter (fun x => x.id != id)
    else s.webApplications
  let relationships :=
    if kind = .relationship then s.relationships.filter (fun r => r.id != id) else s.relationships
  let relationships :=
    if kind ≠ .relationship then
      relationships.filter (fun r => r.sourceId != id && r.targetId != id)
    else relationships
  { persons := persons, softwareSystems := softwareSystems, databases := databases,
    folders := folders, applications := applications, webApplications := webApplications,
    relationships := relationships }

/-! ### The interaction layer (part_010) -/

/-- Whether a selected element is a figure or an arrow. -/
inductive ElemKind
  | figure
  | arrow
deriving DecidableEq, Repr

/-- The editor's per-session flags relevant to pointer handling. -/
structure EditorCtx where
  isReadOnly : Bool
  isHighlighterActive : Bool
deriving DecidableEq, Repr

/-- The editor's local interaction state: the five useState slots of
part_010 that drive pointer handling. -/
structure UIState where
  selectedElement : Option (ElemKind × String)
  connecting : Option String
  placingFigureType : Option DiagramFigureType
  dragging : Option (String × ℚ × ℚ)
  editingLabel : Option (String × ElemKind)
deriving DecidableEq, Repr

/-- part_010 handleMouseDown on a figure.  The generated uuid and the
translated default connection label are passed in; svgP is the pointer
position already inverted into diagram coordinates. -/
def handleMouseDown (ctx : EditorCtx) (ui : UIState) (st : DiagramState)
    (figure : DiagramFigure) (newId newLabel : String) (svgP : ℚ × ℚ) :
    UIState × DiagramState :=
  if ui.placingFigureType.isSome then (ui, st)
  else if ctx.isReadOnly || ui.editingLabel.isSome || ctx.isHighlighterActive then (ui, st)
  else
    match ui.connecting with
    | some sourceId =>
      if sourceId ≠ figure.id then
        ({ ui with connecting := none },
         { st with arrows := st.arrows ++
            [{ id := newId, sourceId := sourceId, targetId := figure.id,
               label := newLabel, arrowType := some ArrowType.oneEnd }] })
      else ({ ui with connecting := none }, st)
    | none =>
      ({ ui with
          selectedElement := some (ElemKind.figure, figure.id),
          dragging := some (figure.id, svgP.1 - figure.position.x, svgP.2 - figure.position.y) },
       st)

/-- part_010 handleMouseMove: the continuous drag update.  svgP is the
pointer position already inverted into diagram coordinates. -/
def handleMouseMove (ctx : EditorCtx) (ui : UIState) (st : DiagramState)
    (svgP : ℚ × ℚ) : DiagramState :=
  if ctx.isReadOnly then st
  else
    match ui.dragging with
    | none => st
    | some (dragId, offsetX, offsetY) =>
      { st with figures := st.figures.map (fun f =>
          if f.id = dragId then
            { f with position := { x := svgP.1 - offsetX, y := svgP.2 - offsetY } }
          else f) }

/-! ### Fit-to-content geometry (components/EditorPanel.tsx) -/

/-- The number of lines of a label.  The source takes label.split at the
newline character and counts the pieces; splitting at a single character
yields exactly one piece more than the number of occurrences of that
character, which is how the count is computed here. -/
def numLines (label : String) : ℕ := label.data.countP (fun c => c == '\n') + 1

/-- EditorPanel.tsx calculateFitHeight: one figure's bottom extent.
14.4 = 72/5 units per extra label line. -/
def figureBottomY (f : DiagramFigure) : ℚ :=
  let labelHeightAddition : ℚ := ((numLines f.label - 1 : ℕ) : ℚ) * (72/5)
  match f.figureType with
  | .rectangle | .actor => f.position.y + 40 + labelHeightAddition
  | .circle | .cloud => f.position.y + 50 + labelHeightAddition

/-- EditorPanel.tsx calculateFitHeight. -/
def calculateFitHeight (figures : List DiagramFigure) : ℚ :=
  if figures = [] then 200
  else
    let maxY : ℚ := figures.foldl (fun m f => max m (figureBottomY f)) 0
    max 200 ((⌈maxY + 20⌉ : ℤ) : ℚ)

/-- The fit height as the claim words it: the maximum over figures of the
bottom extent plus 20 padding, floored at 200, with no rounding-up step.
This definition follows the spec text and is compared against
calculateFitHeight. -/
def specFitHeight : List DiagramFigure → ℚ
  | [] => 200
  | f :: fs =>
    max 200 ((fs.foldl (fun m g => max m (figureBottomY g)) (figureBottomY f)) + 20)

/-- Per-figure extents used by EditorPanel.tsx calculateFitViewBox. -/
structure Bounds where
  left : ℚ
  right : ℚ
  top : ℚ
  bottom : ℚ
deriving DecidableEq, Repr

/-- EditorPanel.tsx calculateFitViewBox: the per-figure bounds switch. -/
def figBounds (f : DiagramFigure) : Bounds :=
  let n := numLines f.label
  let labelHeight : ℚ := if 1 < n then ((n - 1 : ℕ) : ℚ) * (72/5) else 0
  let labelClearance : ℚ := 15
  match f.figureType with
  | .rectangle =>
    { left := f.position.x - 50, right := f.position.x + 50,
      top := f.position.y - 25, bottom := f.position.y + 25 + labelClearance + labelHeight }
  | .circle =>
    { left := f.position.x - 35, right := f.position.x + 35,
      top := f.position.y - 35, bottom := f.position.y + 35 + labelClearance + labelHeight }
  | .cloud =>
    { left := f.position.x - 75, right := f.position.x + 75,
      top := f.position.y - 30, bottom := f.position.y + 15 + labelClearance + labelHeight }
  | .actor =>
    { left := f.position.x - 20, right := f.position.x + 20,
      top := f.position.y - 35, bottom := f.position.y + 25 + labelClearance + labelHeight }

/-- One step of the min/max accumulation of calculateFitViewBox, over
(minX, maxX, minY, maxY). -/
def vbStep (acc : ℚ × ℚ × ℚ × ℚ) (g : DiagramFigure) : ℚ × ℚ × ℚ × ℚ :=
  let b := figBounds g
  (min acc.1 b.left, max acc.2.1 b.right, min acc.2.2.1 b.top, max acc.2.2.2 b.bottom)

/-- EditorPanel.tsx calculateFitViewBox.  The source seeds the accumulators
with positive and negative Infinity; for a nonempty list that is the same as
seeding with the first figure's bounds, which is how it is written here. -/
def calculateFitViewBox : List DiagramFigure → ℚ × ℚ × ℚ × ℚ
  | [] => (0, 0, 800, 400)
  | f :: fs =>
    let b := figBounds f
    let acc := fs.foldl vbStep (b.left, b.right, b.top, b.bottom)
    let contentWidth := acc.2.1 - acc.1
    let contentHeight := acc.2.2.2 - acc.2.2.1
    if contentWidth ≤ 0 ∨ contentHeight ≤ 0 then (0, 0, 800, 400)
    else (acc.1 - 40, acc.2.2.1 - 40, contentWidth + 80, contentHeight + 80)

/-! ### Arrow segment geometry (part_010 arrow rendering) -/

/-- part_010 figureRadii: the fixed per-type collision radii. -/
def figureRadii : DiagramFigureType → ℚ
  | .rectangle => 56
  | .circle => 35
  | .cloud => 75
  | .actor => 41

/-- Euclidean distance between two points of the plane. -/
noncomputable def euclDist (p q : ℝ × ℝ) : ℝ :=
  Real.sqrt ((q.1 - p.1) * (q.1 - p.1) + (q.2 - p.2) * (q.2 - p.2))

/-- A figure's center as a real point. -/
def figureCenter (f : DiagramFigure) : ℝ × ℝ :=
  ((f.position.x : ℝ), (f.position.y : ℝ))

/-- part_010 arrow rendering, lines 498 onward: the clipped segment for one
arrow, or none when the centers coincide or the figures overlap or touch. -/
noncomputable def arrowSegment (source target : DiagramFigure) :
    Option ((ℝ × ℝ) × (ℝ × ℝ)) :=
  let sx : ℝ := (source.position.x : ℝ)
  let sy : ℝ := (source.position.y : ℝ)
  let tx : ℝ := (target.position.x : ℝ)
  let ty : ℝ := (target.position.y : ℝ)
  let dx := tx - sx
  let dy := ty - sy
  let dist := Real.sqrt (dx * dx + dy * dy)
  if dist = 0 then none
  else
    let sourceRadius : ℝ := ((figureRadii source.figureType : ℚ) : ℝ)
    let targetRadius : ℝ := ((figureRadii target.figureType : ℚ) : ℝ)
    if dist ≤ sourceRadius + targetRadius then none
    else
      some ((sx + dx * sourceRadius / dist, sy + dy * sourceRadius / dist),
            (tx - dx * targetRadius / dist, ty - dy * targetRadius / dist))

/-- The list of renderable arrow segments of a state: arrows whose endpoints
resolve and whose segment is non-null; rendering never mutates the state. -/
noncomputable def renderedArrowSegments (st : DiagramState) :
    List (String × ((ℝ × ℝ) × (ℝ × ℝ))) :=
  st.arrows.filterMap (fun a =>
    match st.figures.find? (fun f => f.id == a.sourceId),
          st.figures.find? (fun f => f.id == a.targetId) with
    | some source, some target => (arrowSegment source target).map (fun seg => (a.id, seg))
    | _, _ => none)

/-! ### Rectangle anchor geometry (C4SystemContextDiagramEditor.tsx) -/

/-- C4SystemContextDiagramEditor.tsx getIntersectionPoint.  The source
computes slope as dy over dx; with dx equal to zero JS yields an infinite
slope and the subsequent division collapses to zero, and the rational
division-by-zero convention gives the same zero in every branch reachable
with positive width and height, so the embedding matches the source
pointwise there. -/
def getIntersectionPoint (center : ℚ × ℚ) (width height : ℚ)
    (externalPoint : ℚ × ℚ) : ℚ × ℚ :=
  let dx := externalPoint.1 - center.1
  let dy := externalPoint.2 - center.2
  let w := width / 2
  let h := height / 2
  if dx = 0 ∧ dy = 0 then center
  else
    let slope := dy / dx
    if |dy| * w > |dx| * h then
      let y := center.2 + (if dy > 0 then h else -h)
      (center.1 + (y - center.2) / slope, y)
    else
      let x := center.1 + (if dx > 0 then w else -w)
      (x, center.2 + (x - center.1) * slope)

/-! ### Concrete example inputs -/

/-- A circle figure at the origin. -/
def exCircleA : DiagramFigure :=
  { id := "a", figureType := .circle, position := ⟨0, 0⟩, label := "A" }

/-- A circle figure 40 units to the right: the two collision radii sum to 70,
so the figures overlap. -/
def exCircleB : DiagramFigure :=
  { id := "b", figureType := .circle, position := ⟨40, 0⟩, label := "B" }

/-- An arrow connecting the two overlapping circles. -/
def exArrowAB : DiagramArrow :=
  { id := "ab", sourceId := "a", targetId := "b", label := "to" }

/-- A state holding the two overlapping circles and the arrow between them. -/
def exOverlapState : DiagramState :=
  { figures := [exCircleA, exCircleB], arrows := [exArrowAB] }

/-- A rectangle whose bottom extent is fractional, so that the rounding-up
step of calculateFitHeight is observable. -/
def exFitFigure : DiagramFigure :=
  { id := "f1", figureType := .rectangle, position := ⟨0, 401/2⟩, label := "A" }

/-! ## Shared helper lemmas -/

lemma log10_sandwich {q : ℚ} (hq : 1 ≤ q) :
    (10:ℚ) ^ Nat.log 10 ⌊q⌋₊ ≤ q ∧ q < 10 ^ (Nat.log 10 ⌊q⌋₊ + 1) := by
  have hq0 : (0:ℚ) ≤ q := by linarith
  have hfl : 1 ≤ ⌊q⌋₊ := Nat.le_floor (by exact_mod_cast hq)
  have h1 : 10 ^ Nat.log 10 ⌊q⌋₊ ≤ ⌊q⌋₊ := Nat.pow_log_le_self 10 (by omega)
  have h2 : ⌊q⌋₊ < 10 ^ (Nat.log 10 ⌊q⌋₊ + 1) := Nat.lt_pow_succ_log_self (by norm_num) _
  constructor
  · calc (10:ℚ) ^ Nat.log 10 ⌊q⌋₊ = ((10 ^ Nat.log 10 ⌊q⌋₊ : ℕ) : ℚ) := by push_cast; ring
      _ ≤ (⌊q⌋₊ : ℚ) := by exact_mod_cast h1
      _ ≤ q := Nat.floor_le hq0
  · calc q < (⌊q⌋₊ : ℚ) + 1 := Nat.lt_floor_add_one q
      _ ≤ ((10 ^ (Nat.log 10 ⌊q⌋₊ + 1) : ℕ) : ℚ) := by exact_mod_cast h2
      _ = 10 ^ (Nat.log 10 ⌊q⌋₊ + 1) := by push_cast; ring

lemma log10_eq_of_sandwich {q : ℚ} {e : ℕ} (h1 : (10:ℚ) ^ e ≤ q) (h2 : q < 10 ^ (e + 1)) :
    Nat.log 10 ⌊q⌋₊ = e := by
  have hq0 : (0:ℚ) ≤ q := le_trans (by positivity) h1
  have ha : 10 ^ e ≤ ⌊q⌋₊ := Nat.le_floor (by exact_mod_cast h1)
  have hb : ⌊q⌋₊ < 10 ^ (e + 1) := by
    rw [Nat.floor_lt hq0]
    exact_mod_cast h2
  exact Nat.log_eq_of_pow_le_of_lt_pow ha hb

lemma formatNumber_eq_of_big {v : ℚ} (hv : 1000000 ≤ |v|) (hv0 : v ≠ 0) :
    formatNumber v =
      (if |v| / 10 ^ Nat.log 10 ⌊|v|⌋₊ < 3/2 then
        FormattedNumber.orderOfMagnitude (decide (v < 0)) (Nat.log 10 ⌊|v|⌋₊)
      else if ⌊|v| / 10 ^ Nat.log 10 ⌊|v|⌋₊ * 10 + 1/2⌋₊ = 100 then
        FormattedNumber.mantissaTimesPow (decide (v < 0)) 10 (Nat.log 10 ⌊|v|⌋₊ + 1)
      else
        FormattedNumber.mantissaTimesPow (decide (v < 0))
          ⌊|v| / 10 ^ Nat.log 10 ⌊|v|⌋₊ * 10 + 1/2⌋₊ (Nat.log 10 ⌊|v|⌋₊)) := by
  unfold formatNumber
  rw [if_pos hv, if_neg hv0]

lemma countP_not_add {α : Type} (l : List α) (p : α → Bool) :
    l.countP p + l.countP (fun a => !(p a)) = l.length := by
  induction l with
  | nil => simp
  | cons x xs ih => cases h : p x <;> simp [List.countP_cons, h] <;> omega

lemma filter_length_sub {α : Type} (l : List α) (p : α → Bool) :
    (l.filter p).length = l.length - l.countP (fun a => !(p a)) := by
  have h := countP_not_add l p
  have h2 : (l.filter p).length = l.countP p := (List.countP_eq_length_filter p l).symm
  omega

lemma foldl_max_comm (l : List ℚ) (a b : ℚ) :
    l.foldl max (max a b) = max a (l.foldl max b) := by
  induction l generalizing b with
  | nil => rfl
  | cons x xs ih =>
    simp only [List.foldl_cons]
    rw [max_assoc, ih]

lemma foldl_max_init_mono (l : List ℚ) {a b : ℚ} (h : a ≤ b) :
    l.foldl max a ≤ l.foldl max b := by
  induction l generalizing a b with
  | nil => exact h
  | cons x xs ih =>
    simp only [List.foldl_cons]
    exact ih (max_le_max h le_rfl)

lemma foldl_max_mono {l l2 : List ℚ} (h : List.Forall₂ (· ≤ ·) l l2) (a : ℚ) :
    l.foldl max a ≤ l2.foldl max a := by
  induction h generalizing a with
  | nil => exact le_rfl
  | cons hxy htail ih =>
    simp only [List.foldl_cons]
    exact le_trans (foldl_max_init_mono _ (max_le_max le_rfl hxy)) (ih _)

lemma forall2_le_map_set (figures : List DiagramFigure) (i : ℕ) (f2 : DiagramFigure)
    (g : DiagramFigure → ℚ)
    (h : ∀ hi : i < figures.length, g (figures.get ⟨i, hi⟩) ≤ g f2) :
    List.Forall₂ (· ≤ ·) (figures.map g) ((figures.set i f2).map g) := by
  induction figures generalizing i with
  | nil => simp
  | cons a l ih =>
    cases i with
    | zero =>
      simp only [List.set, List.map_cons]
      exact List.Forall₂.cons (h (by simp)) (List.forall₂_same.mpr (fun x _ => le_rfl))
    | succ n =>
      simp only [List.set, List.map_cons]
      refine List.Forall₂.cons le_rfl (ih n (fun hi => ?_))
      have := h (by simpa using Nat.succ_lt_succ hi)
      simpa using this

lemma figureBottomY_mono {f f2 : DiagramFigure} (ht : f.figureType = f2.figureType)
    (hp : f.position = f2.position) (hl : numLines f.label ≤ numLines f2.label) :
    figureBottomY f ≤ figureBottomY f2 := by
  have hcast : ((numLines f.label - 1 : ℕ) : ℚ) ≤ ((numLines f2.label - 1 : ℕ) : ℚ) := by
    exact_mod_cast Nat.sub_le_sub_right hl 1
  have hmul : ((numLines f.label - 1 : ℕ) : ℚ) * (72/5) ≤
      ((numLines f2.label - 1 : ℕ) : ℚ) * (72/5) :=
    mul_le_mul_of_nonneg_right hcast (by norm_num)
  unfold figureBottomY
  rw [ht, hp]
  cases f2.figureType <;> simp only [] <;> linarith

lemma fitHeight_fold_eq (figures : List DiagramFigure) (a : ℚ) :
    figures.foldl (fun m f => max m (figureBottomY f)) a =
      (figures.map figureBottomY).foldl max a := by
  rw [List.foldl_map]

/-! ## Claim theorems -/

/-- C2: the metric formatter groups digits exactly below one million; at or
above one million it computes the floored base-10 exponent and the mantissa,
renders the bare order of magnitude when the mantissa is below 1.5, and
otherwise the mantissa rounded to one decimal times ten to the exponent
(numerically, also when the rounding carries); 999999 stays grouped and
1000000 becomes an order-of-magnitude form. -/
theorem formatNumber_spec (v : ℚ) :
    (|v| < 1000000 → formatNumber v = FormattedNumber.grouped v) ∧
    (1000000 ≤ |v| →
      ∃ e : ℕ, (10:ℚ) ^ e ≤ |v| ∧ |v| < 10 ^ (e + 1) ∧
        (|v| / 10 ^ e < 3/2 →
          formatNumber v = FormattedNumber.orderOfMagnitude (decide (v < 0)) e) ∧
        (3/2 ≤ |v| / 10 ^ e →
          ∃ t e2, formatNumber v = FormattedNumber.mantissaTimesPow (decide (v < 0)) t e2 ∧
            (t : ℚ) / 10 * 10 ^ e2 = (⌊|v| / 10 ^ e * 10 + 1/2⌋₊ : ℚ) / 10 * 10 ^ e ∧
            (⌊|v| / 10 ^ e * 10 + 1/2⌋₊ ≠ 100 →
              t = ⌊|v| / 10 ^ e * 10 + 1/2⌋₊ ∧ e2 = e))) ∧
    formatNumber 999999 = FormattedNumber.grouped 999999 ∧
    formatNumber 1000000 = FormattedNumber.orderOfMagnitude false 6 := by
  refine ⟨?_, ?_, ?_, ?_⟩
  · intro h
    unfold formatNumber
    rw [if_neg (not_le.mpr h)]
  · intro hv
    have hv0 : v ≠ 0 := by
      intro h
      rw [h] at hv
      norm_num at hv
    have h1 : (1:ℚ) ≤ |v| := by linarith
    obtain ⟨hlo, hhi⟩ := log10_sandwich h1
    refine ⟨Nat.log 10 ⌊|v|⌋₊, hlo, hhi, ?_, ?_⟩
    · intro hm
      rw [formatNumber_eq_of_big hv hv0, if_pos hm]
    · intro hm
      rw [formatNumber_eq_of_big hv hv0, if_neg (not_lt.mpr hm)]
      by_cases hc : ⌊|v| / 10 ^ Nat.log 10 ⌊|v|⌋₊ * 10 + 1/2⌋₊ = 100
      · refine ⟨10, Nat.log 10 ⌊|v|⌋₊ + 1, by rw [if_pos hc], ?_, fun hne => absurd hc hne⟩
        rw [hc]
        push_cast
        ring
      · exact ⟨_, _, by rw [if_neg hc], rfl, fun _ => ⟨rfl, rfl⟩⟩
  · unfold formatNumber
    rw [if_neg (by norm_num : ¬ ((1000000:ℚ) ≤ |(999999:ℚ)|))]
  · have hv : (1000000:ℚ) ≤ |(1000000:ℚ)| := by norm_num
    have hv0 : (1000000:ℚ) ≠ 0 := by norm_num
    rw [formatNumber_eq_of_big hv hv0]
    have he : Nat.log 10 ⌊|(1000000:ℚ)|⌋₊ = 6 := by
      apply log10_eq_of_sandwich (q := |(1000000:ℚ)|) (e := 6) <;> norm_num
    rw [he]
    norm_num

/-- C2 witness: a value below one million is rendered grouped. -/
theorem formatNumber_spec_witness :
    formatNumber 500 = FormattedNumber.grouped 500 :=
  (formatNumber_spec 500).1 (by norm_num)

/-- C3: when the mantissa rounds to 10.0 at one decimal, the formatter
renders mantissa 1.0 (ten tenths) with the exponent incremented by one. -/
theorem formatNumber_carry (v : ℚ) (e : ℕ) (hv : 1000000 ≤ |v|)
    (h1 : (10:ℚ) ^ e ≤ |v|) (h2 : |v| < 10 ^ (e + 1))
    (hc : ⌊|v| / 10 ^ e * 10 + 1/2⌋₊ = 100) :
    formatNumber v = FormattedNumber.mantissaTimesPow (decide (v < 0)) 10 (e + 1) := by
  have hv0 : v ≠ 0 := by
    intro h
    rw [h] at hv
    norm_num at hv
  have he : Nat.log 10 ⌊|v|⌋₊ = e := log10_eq_of_sandwich h1 h2
  have hx0 : (0:ℚ) ≤ |v| / 10 ^ e * 10 + 1/2 := by positivity
  have h100 : (100:ℚ) ≤ |v| / 10 ^ e * 10 + 1/2 := by
    have := (Nat.floor_eq_iff hx0).mp hc
    exact_mod_cast this.1
  have hm : 3/2 ≤ |v| / 10 ^ e := by linarith
  rw [formatNumber_eq_of_big hv hv0, he, if_neg (not_lt.mpr hm), if_pos hc]

/-- C3 witness: 9,999,999 renders as 1.0 times ten to the seventh, never as
10.0 times ten to the sixth. -/
theorem formatNumber_carry_witness :
    formatNumber 9999999 = FormattedNumber.mantissaTimesPow false 10 7 := by
  have h := formatNumber_carry 9999999 6 (by norm_num) (by norm_num) (by norm_num)
    (by
      rw [Nat.floor_eq_iff (by norm_num)]
      norm_num)
  rwa [show (decide ((9999999:ℚ) < 0)) = false by rfl] at h

/-- C8 counterexample: a rectangle figure whose data holds the arrow-only
key traffic still gets a rendered row, though the claim's appliesTo filter
would drop it. -/
theorem dataDisplayRows_counterexample :
    dataDisplayRows [("traffic", JsVal.num 5)] ≠
      specOverlayRows (ApplTarget.fig DiagramFigureType.rectangle)
        [("traffic", JsVal.num 5)] := by
  decide

/-- C8 amended: the rendered overlay contains exactly the registered keys
with a present, non-empty value, with no appliesTo filtering; the appliesTo
filter is applied only by the edit panel's applicableParams. -/
theorem dataDisplayRows_spec (data : ElementData) (k : String) (pd : ParameterDef)
    (v : JsVal) (kind : ApplTarget) :
    ((k, pd, v) ∈ dataDisplayRows data ↔
      (k, pd) ∈ diagramParameterDefs ∧ data.lookup k = some v ∧ v ≠ JsVal.str "") ∧
    ((k, pd) ∈ applicableParams kind ↔
      (k, pd) ∈ diagramParameterDefs ∧ kind ∈ pd.appliesTo) := by
  constructor
  · rw [dataDisplayRows, List.mem_filterMap]
    constructor
    · rintro ⟨⟨k0, pd0⟩, hmem, heq⟩
      cases hlk : List.lookup k0 data with
      | none => rw [hlk] at heq; simp at heq
      | some v0 =>
        rw [hlk] at heq
        simp only [] at heq
        by_cases hemp : v0 = JsVal.str ""
        · rw [if_pos hemp] at heq; simp at heq
        · rw [if_neg hemp] at heq
          obtain ⟨hk, hpd, hv⟩ : k0 = k ∧ pd0 = pd ∧ v0 = v := by
            simpa [Prod.ext_iff] using heq
          subst hk; subst hpd; subst hv
          exact ⟨hmem, hlk, hemp⟩
    · rintro ⟨hmem, hlk, hv⟩
      refine ⟨(k, pd), hmem, ?_⟩
      rw [hlk]
      simp only []
      rw [if_neg hv]
  · rw [applicableParams, List.mem_filter]
    simp

/-- C8 amended witness: an applicable key with a present numeric value is
rendered. -/
theorem dataDisplayRows_spec_witness :
    (("rps", { abbr := "RPS", caption := "Requests per second", unit := "",
               appliesTo := [.fig .rectangle, .fig .circle, .fig .cloud, .fig .actor] },
      JsVal.num 7) ∈ dataDisplayRows [("rps", JsVal.num 7)]) :=
  (dataDisplayRows_spec [("rps", JsVal.num 7)] "rps" _ (JsVal.num 7) ApplTarget.arrow).1.mpr
    ⟨by decide, by decide, by decide⟩

/-- C4: deleting a figure removes exactly the arrows referencing it (their
count is the number of references), removes exactly the figures carrying the
deleted id, and under id-uniqueness shrinks the figure list by one; in the
C4 editor, deleting a non-relationship element cascades to exactly the
referencing relationships, leaves every other element array untouched, and
removes from the selected kind's own array exactly the elements carrying
the deleted id. -/
theorem deleteFigureOp_spec (st : DiagramState) (id : String) :
    (∀ a : DiagramArrow, a ∈ (deleteFigureOp st id).arrows ↔
        (a ∈ st.arrows ∧ a.sourceId ≠ id ∧ a.targetId ≠ id)) ∧
    (deleteFigureOp st id).arrows.length =
      st.arrows.length - st.arrows.countP (fun a => a.sourceId == id || a.targetId == id) ∧
    (∀ f : DiagramFigure, f ∈ (deleteFigureOp st id).figures ↔ (f ∈ st.figures ∧ f.id ≠ id)) ∧
    (st.figures.countP (fun f => f.id == id) = 1 →
      (deleteFigureOp st id).figures.length = st.figures.length - 1) ∧
    (∀ (cs : C4DiagramState) (kind : C4SelKind), kind ≠ C4SelKind.relationship →
      (∀ r : C4Relationship, r ∈ (deleteSelectedC4 cs kind id).relationships ↔
          (r ∈ cs.relationships ∧ r.sourceId ≠ id ∧ r.targetId ≠ id)) ∧
      (kind ≠ C4SelKind.person → (deleteSelectedC4 cs kind id).persons = cs.persons) ∧
      (kind ≠ C4SelKind.system →
        (deleteSelectedC4 cs kind id).softwareSystems = cs.softwareSystems) ∧
      (kind ≠ C4SelKind.database → (deleteSelectedC4 cs kind id).databases = cs.databases) ∧
      (kind ≠ C4SelKind.folder → (deleteSelectedC4 cs kind id).folders = cs.folders) ∧
      (kind ≠ C4SelKind.application →
        (deleteSelectedC4 cs kind id).applications = cs.applications) ∧
      (kind ≠ C4SelKind.webApplication →
        (deleteSelectedC4 cs kind id).webApplications = cs.webApplications) ∧
      (kind = C4SelKind.person → ∀ p : C4Element,
        p ∈ (deleteSelectedC4 cs kind id).persons ↔ (p ∈ cs.persons ∧ p.id ≠ id)) ∧
      (kind = C4SelKind.system → ∀ x : C4Element,
        x ∈ (deleteSelectedC4 cs kind id).softwareSystems ↔
          (x ∈ cs.softwareSystems ∧ x.id ≠ id)) ∧
      (kind = C4SelKind.database → ∀ x : C4Element,
        x ∈ (deleteSelectedC4 cs kind id).databases ↔ (x ∈ cs.databases ∧ x.id ≠ id)) ∧
      (kind = C4SelKind.folder → ∀ x : C4Element,
        x ∈ (deleteSelectedC4 cs kind id).folders ↔ (x ∈ cs.folders ∧ x.id ≠ id)) ∧
      (kind = C4SelKind.application → ∀ x : C4Element,
        x ∈ (deleteSelectedC4 cs kind id).applications ↔
          (x ∈ cs.applications ∧ x.id ≠ id)) ∧
      (kind = C4SelKind.webApplication → ∀ x : C4Element,
        x ∈ (deleteSelectedC4 cs kind id).webApplications ↔
          (x ∈ cs.webApplications ∧ x.id ≠ id))) := by
  refine ⟨?_, ?_, ?_, ?_, ?_⟩
  · intro a
    simp [deleteFigureOp, List.mem_filter, and_assoc]
  · rw [show (deleteFigureOp st id).arrows =
        st.arrows.filter (fun a => a.sourceId != id && a.targetId != id) from rfl]
    rw [filter_length_sub]
    congr 1
    apply List.countP_congr
    intro a _
    cases h1 : a.sourceId == id <;> cases h2 : a.targetId == id <;>
      simp_all [beq_iff_eq, beq_eq_false_iff_ne]
  · intro f
    simp [deleteFigureOp, List.mem_filter]
  · intro hcount
    rw [show (deleteFigureOp st id).figures = st.figures.filter (fun f => f.id != id) from rfl]
    rw [filter_length_sub]
    have h : st.figures.countP (fun f => !(f.id != id)) =
        st.figures.countP (fun f => f.id == id) := by
      apply List.countP_congr
      intro f _
      cases h : f.id == id <;> simp_all [beq_iff_eq, beq_eq_false_iff_ne]
    rw [h, hcount]
  · intro cs kind hkind
    cases kind <;>
      first
        | exact absurd rfl hkind
        | simp [deleteSelectedC4, List.mem_filter, and_assoc]

/-- C4 witness: deleting figure a from the overlap example removes it and
its referencing arrow. -/
theorem deleteFigureOp_spec_witness :
    (deleteFigureOp exOverlapState "a").figures.length =
      exOverlapState.figures.length - 1 :=
  (deleteFigureOp_spec exOverlapState "a").2.2.2.1 (by decide)

/-- C7: with the machine in connecting mode, a pointerdown on the source
figure itself creates no arrow and clears the connecting mode, while a
pointerdown on a different figure appends exactly one new arrow from the
source to it and clears the connecting mode. -/
theorem handleMouseDown_connecting_spec (ctx : EditorCtx) (ui : UIState)
    (st : DiagramState) (figure : DiagramFigure) (newId newLabel : String)
    (svgP : ℚ × ℚ) (sourceId : String)
    (hplace : ui.placingFigureType = none)
    (hro : ctx.isReadOnly = false)
    (hedit : ui.editingLabel = none)
    (hhl : ctx.isHighlighterActive = false)
    (hconn : ui.connecting = some sourceId) :
    (figure.id = sourceId →
      handleMouseDown ctx ui st figure newId newLabel svgP =
        ({ ui with connecting := none }, st)) ∧
    (figure.id ≠ sourceId →
      handleMouseDown ctx ui st figure newId newLabel svgP =
        ({ ui with connecting := none },
         { st with arrows := st.arrows ++
            [{ id := newId, sourceId := sourceId, targetId := figure.id,
               label := newLabel, arrowType := some ArrowType.oneEnd }] })) := by
  unfold handleMouseDown
  rw [hplace, hro, hedit, hhl, hconn]
  simp only [Option.isSome_none, Bool.false_eq_true, if_false, Bool.or_self]
  constructor
  · intro h
    rw [if_neg (show ¬ sourceId ≠ figure.id from fun hne => hne h.symm)]
  · intro h
    rw [if_pos (fun hEq => h (hEq.symm))]

/-- C7 witness: clicking the connect source itself leaves the state
unchanged and returns the machine to idle. -/
theorem handleMouseDown_connecting_spec_witness :
    handleMouseDown ⟨false, false⟩ ⟨none, some "a", none, none, none⟩
      ⟨[exCircleA], []⟩ exCircleA "fresh" "new connection" (0, 0) =
      (⟨none, none, none, none, none⟩, ⟨[exCircleA], []⟩) :=
  (handleMouseDown_connecting_spec ⟨false, false⟩
    ⟨none, some "a", none, none, none⟩ ⟨[exCircleA], []⟩ exCircleA "fresh"
    "new connection" (0, 0) "a" rfl rfl rfl rfl rfl).1 rfl

/-- C10: the drag update leaves the arrows untouched, preserves the figure
count, keeps every figure with a different id unchanged, changes only the
position field of figures carrying the dragged id, and is the identity when
no figure carries that id. -/
theorem handleMouseMove_drag_spec (ctx : EditorCtx) (ui : UIState) (st : DiagramState)
    (svgP : ℚ × ℚ) (dragId : String) (offsetX offsetY : ℚ)
    (hro : ctx.isReadOnly = false)
    (hdrag : ui.dragging = some (dragId, offsetX, offsetY)) :
    (handleMouseMove ctx ui st svgP).arrows = st.arrows ∧
    (handleMouseMove ctx ui st svgP).figures.length = st.figures.length ∧
    (∀ f ∈ st.figures, f.id ≠ dragId → f ∈ (handleMouseMove ctx ui st svgP).figures) ∧
    (∀ f2 ∈ (handleMouseMove ctx ui st svgP).figures, ∃ f ∈ st.figures,
      f2.id = f.id ∧ f2.figureType = f.figureType ∧ f2.label = f.label ∧
      f2.data = f.data ∧ f2.showData = f.showData ∧
      (f.id ≠ dragId → f2 = f) ∧
      (f.id = dragId → f2.position = ⟨svgP.1 - offsetX, svgP.2 - offsetY⟩)) ∧
    ((∀ f ∈ st.figures, f.id ≠ dragId) → handleMouseMove ctx ui st svgP = st) := by
  have hstep : handleMouseMove ctx ui st svgP =
      { st with figures := st.figures.map (fun f =>
          if f.id = dragId then
            { f with position := { x := svgP.1 - offsetX, y := svgP.2 - offsetY } }
          else f) } := by
    unfold handleMouseMove
    rw [hro, hdrag]
    simp only [Bool.false_eq_true, if_false]
  refine ⟨?_, ?_, ?_, ?_, ?_⟩
  · rw [hstep]
  · rw [hstep]
    simp
  · intro f hf hne
    rw [hstep]
    simp only [List.mem_map]
    exact ⟨f, hf, by rw [if_neg hne]⟩
  · intro f2 hf2
    rw [hstep] at hf2
    simp only [List.mem_map] at hf2
    obtain ⟨f, hf, heq⟩ := hf2
    by_cases hid : f.id = dragId
    · rw [if_pos hid] at heq
      exact ⟨f, hf, by rw [← heq], by rw [← heq], by rw [← heq], by rw [← heq],
        by rw [← heq], fun hne => absurd hid hne, fun _ => by rw [← heq]⟩
    · rw [if_neg hid] at heq
      exact ⟨f, hf, by rw [heq], by rw [heq], by rw [heq], by rw [heq], by rw [heq],
        fun _ => heq.symm, fun h => absurd h hid⟩
  · intro hall
    rw [hstep]
    have hmap : st.figures.map (fun f =>
        if f.id = dragId then
          { f with position := { x := svgP.1 - offsetX, y := svgP.2 - offsetY } }
        else f) = st.figures.map id :=
      List.map_congr_left (fun f hf => by rw [if_neg (hall f hf)]; rfl)
    rw [hmap, List.map_id]

/-- C10 witness: dragging an id that matches no figure leaves the state
unchanged. -/
theorem handleMouseMove_drag_spec_witness :
    handleMouseMove ⟨false, false⟩ ⟨none, none, none, some ("zz", 0, 0), none⟩
      ⟨[exCircleA], []⟩ (7, 9) = ⟨[exCircleA], []⟩ :=
  (handleMouseMove_drag_spec ⟨false, false⟩
    ⟨none, none, none, some ("zz", 0, 0), none⟩ ⟨[exCircleA], []⟩ (7, 9)
    "zz" 0 0 rfl rfl).2.2.2.2 (by decide)

/-- C5 amended: the fit height is at least 200, equals 200 on the empty
list, equals the maximum bottom extent plus 20 rounded up to an integer and
floored at 200 on a nonempty list, and is monotone when any one figure's
label gains lines. -/
theorem calculateFitHeight_spec :
    (∀ figures, 200 ≤ calculateFitHeight figures) ∧
    calculateFitHeight [] = 200 ∧
    (∀ f fs, calculateFitHeight (f :: fs) =
      max 200 ((⌈(fs.foldl (fun m g => max m (figureBottomY g)) (figureBottomY f)) + 20⌉ : ℤ) : ℚ)) ∧
    (∀ figures (i : ℕ) (f2 : DiagramFigure) (hi : i < figures.length),
      (figures.get ⟨i, hi⟩).figureType = f2.figureType →
      (figures.get ⟨i, hi⟩).position = f2.position →
      numLines (figures.get ⟨i, hi⟩).label ≤ numLines f2.label →
      calculateFitHeight figures ≤ calculateFitHeight (figures.set i f2)) := by
  have hbranch : ∀ f (fs : List DiagramFigure), calculateFitHeight (f :: fs) =
      max 200 ((⌈(fs.foldl (fun m g => max m (figureBottomY g)) (figureBottomY f)) + 20⌉ : ℤ) : ℚ) := by
    intro f fs
    have hstep : calculateFitHeight (f :: fs) =
        max 200 ((⌈((f :: fs).foldl (fun m g => max m (figureBottomY g)) 0) + 20⌉ : ℤ) : ℚ) := by
      unfold calculateFitHeight
      rw [if_neg (List.cons_ne_nil f fs)]
    have h0 : (f :: fs).foldl (fun m g => max m (figureBottomY g)) 0 =
        max 0 (fs.foldl (fun m g => max m (figureBottomY g)) (figureBottomY f)) := by
      rw [fitHeight_fold_eq, fitHeight_fold_eq]
      simp only [List.map_cons, List.foldl_cons]
      rw [foldl_max_comm]
    rw [hstep, h0]
    set M := fs.foldl (fun m g => max m (figureBottomY g)) (figureBottomY f) with hM
    rcases le_total 0 M with h | h
    · rw [max_eq_right h]
    · rw [max_eq_left h]
      have h20 : (⌈(0:ℚ) + 20⌉ : ℤ) = 20 := by norm_num
      have hle : (⌈M + 20⌉ : ℤ) ≤ 20 := by
        have hq : M + 20 ≤ (0:ℚ) + 20 := by linarith
        calc (⌈M + 20⌉ : ℤ) ≤ ⌈(0:ℚ) + 20⌉ := Int.ceil_le_ceil hq
          _ = 20 := h20
      rw [h20]
      rw [max_eq_left (by norm_num : ((20:ℤ):ℚ) ≤ 200),
        max_eq_left (show ((⌈M + 20⌉:ℤ):ℚ) ≤ 200 by exact_mod_cast le_trans hle (by norm_num))]
  refine ⟨?_, rfl, hbranch, ?_⟩
  · intro figures
    unfold calculateFitHeight
    by_cases h : figures = []
    · rw [if_pos h]
    · rw [if_neg h]
      exact le_max_left _ _
  · intro figures i f2 hi ht hp hl
    have hne : figures ≠ [] := by
      intro h
      rw [h] at hi
      simp at hi
    have hne2 : figures.set i f2 ≠ [] := by
      intro h
      have hlen := congrArg List.length h
      rw [List.length_set] at hlen
      simp only [List.length_nil] at hlen
      omega
    unfold calculateFitHeight
    rw [if_neg hne, if_neg hne2]
    have hfold : figures.foldl (fun m f => max m (figureBottomY f)) 0 ≤
        (figures.set i f2).foldl (fun m f => max m (figureBottomY f)) 0 := by
      rw [fitHeight_fold_eq, fitHeight_fold_eq]
      exact foldl_max_mono
        (forall2_le_map_set figures i f2 figureBottomY
          (fun hi2 => figureBottomY_mono ht hp hl)) 0
    refine max_le_max le_rfl ?_
    exact_mod_cast Int.ceil_le_ceil (by linarith)

/-- C5 witness: growing a label by one line does not shrink the fit height. -/
theorem calculateFitHeight_spec_witness :
    calculateFitHeight [exCircleA] ≤
      calculateFitHeight ([exCircleA].set 0 { exCircleA with label := "A\nB" }) :=
  calculateFitHeight_spec.2.2.2 [exCircleA] 0 { exCircleA with label := "A\nB" }
    (by decide) rfl rfl (by decide)

/-- C5 counterexample: at a fractional bottom extent the code rounds up with
Math.ceil, so the value differs from the claim's un-rounded formula. -/
theorem calculateFitHeight_counterexample :
    calculateFitHeight [exFitFigure] ≠ specFitHeight [exFitFigure] := by
  have hn : numLines "A" = 1 := by decide
  have hbot : figureBottomY exFitFigure = 481/2 := by
    simp [figureBottomY, exFitFigure, hn]
    norm_num
  have h1 : calculateFitHeight [exFitFigure] = 261 := by
    have hstep : calculateFitHeight [exFitFigure] =
        max 200 ((⌈(([exFitFigure] : List DiagramFigure).foldl
          (fun m g => max m (figureBottomY g)) 0) + 20⌉ : ℤ) : ℚ) := by
      unfold calculateFitHeight
      rw [if_neg (List.cons_ne_nil exFitFigure [])]
    have hfold : ([exFitFigure] : List DiagramFigure).foldl
        (fun m g => max m (figureBottomY g)) 0 = max 0 (figureBottomY exFitFigure) := rfl
    rw [hstep, hfold, hbot]
    rw [show max (0:ℚ) (481/2) = 481/2 by norm_num]
    rw [show (481/2 : ℚ) + 20 = 521/2 by norm_num]
    rw [show (⌈(521/2 : ℚ)⌉ : ℤ) = 261 by rw [Int.ceil_eq_iff]; constructor <;> norm_num]
    norm_num
  have h2 : specFitHeight [exFitFigure] = 521/2 := by
    unfold specFitHeight
    simp only [List.foldl_nil]
    rw [hbot]
    norm_num
  rw [h1, h2]
  norm_num

lemma foldl_min_le_init (l : List ℚ) (a : ℚ) : l.foldl min a ≤ a := by
  induction l generalizing a with
  | nil => exact le_rfl
  | cons x xs ih => exact le_trans (ih (min a x)) (min_le_left a x)

lemma foldl_min_le_mem {l : List ℚ} {x : ℚ} (hx : x ∈ l) (a : ℚ) : l.foldl min a ≤ x := by
  induction l generalizing a with
  | nil => cases hx
  | cons y ys ih =>
    rcases List.mem_cons.mp hx with h | h
    · subst h
      exact le_trans (foldl_min_le_init ys (min a x)) (min_le_right a x)
    · exact ih h (min a y)

lemma foldl_min_eq_init_or_mem (l : List ℚ) (a : ℚ) :
    l.foldl min a = a ∨ l.foldl min a ∈ l := by
  induction l generalizing a with
  | nil => exact Or.inl rfl
  | cons x xs ih =>
    rcases ih (min a x) with h | h
    · rcases min_cases a x with ⟨hm, _⟩ | ⟨hm, _⟩
      · left
        rw [List.foldl_cons, h, hm]
      · right
        rw [List.foldl_cons, h, hm]
        exact List.mem_cons_self x xs
    · right
      exact List.mem_cons_of_mem x h

lemma le_foldl_max_init (l : List ℚ) (a : ℚ) : a ≤ l.foldl max a := by
  induction l generalizing a with
  | nil => exact le_rfl
  | cons x xs ih => exact le_trans (le_max_left a x) (ih (max a x))

lemma mem_le_foldl_max {l : List ℚ} {x : ℚ} (hx : x ∈ l) (a : ℚ) : x ≤ l.foldl max a := by
  induction l generalizing a with
  | nil => cases hx
  | cons y ys ih =>
    rcases List.mem_cons.mp hx with h | h
    · subst h
      exact le_trans (le_max_right a x) (le_foldl_max_init ys (max a x))
    · exact ih h (max a y)

lemma foldl_max_eq_init_or_mem (l : List ℚ) (a : ℚ) :
    l.foldl max a = a ∨ l.foldl max a ∈ l := by
  induction l generalizing a with
  | nil => exact Or.inl rfl
  | cons x xs ih =>
    rcases ih (max a x) with h | h
    · rcases max_cases a x with ⟨hm, _⟩ | ⟨hm, _⟩
      · left
        rw [List.foldl_cons, h, hm]
      · right
        rw [List.foldl_cons, h, hm]
        exact List.mem_cons_self x xs
    · right
      exact List.mem_cons_of_mem x h

lemma vbFold_proj (fs : List DiagramFigure) (a b c d : ℚ) :
    fs.foldl vbStep (a, b, c, d) =
      ((fs.map (fun g => (figBounds g).left)).foldl min a,
       (fs.map (fun g => (figBounds g).right)).foldl max b,
       (fs.map (fun g => (figBounds g).top)).foldl min c,
       (fs.map (fun g => (figBounds g).bottom)).foldl max d) := by
  induction fs generalizing a b c d with
  | nil => rfl
  | cons x xs ih =>
    simp only [List.foldl_cons, List.map_cons, vbStep]
    exact ih _ _ _ _

lemma figBounds_labelHeight_nonneg (g : DiagramFigure) :
    (0:ℚ) ≤ (if 1 < numLines g.label then ((numLines g.label - 1 : ℕ) : ℚ) * (72/5) else 0) := by
  split
  · positivity
  · exact le_rfl

lemma figBounds_width_pos (g : DiagramFigure) : (figBounds g).left < (figBounds g).right := by
  unfold figBounds
  cases g.figureType <;> simp only [] <;> linarith

lemma figBounds_height_pos (g : DiagramFigure) : (figBounds g).top < (figBounds g).bottom := by
  have h := figBounds_labelHeight_nonneg g
  unfold figBounds
  cases g.figureType <;> simp only [] <;> linarith

/-- C6: the fit viewBox is the default on the empty list (and whenever the
guard sees a non-positive content size, which a nonempty list never
produces); on a nonempty list it is exactly the bounding box of all
figures' extents expanded by 40 on each side. -/
theorem calculateFitViewBox_spec :
    calculateFitViewBox [] = (0, 0, 800, 400) ∧
    (∀ f fs,
      (∀ g ∈ f :: fs,
        (calculateFitViewBox (f :: fs)).1 + 40 ≤ (figBounds g).left ∧
        (figBounds g).right ≤
          (calculateFitViewBox (f :: fs)).1 + (calculateFitViewBox (f :: fs)).2.2.1 - 40 ∧
        (calculateFitViewBox (f :: fs)).2.1 + 40 ≤ (figBounds g).top ∧
        (figBounds g).bottom ≤
          (calculateFitViewBox (f :: fs)).2.1 + (calculateFitViewBox (f :: fs)).2.2.2 - 40) ∧
      (∃ g ∈ f :: fs, (figBounds g).left = (calculateFitViewBox (f :: fs)).1 + 40) ∧
      (∃ g ∈ f :: fs, (figBounds g).right =
        (calculateFitViewBox (f :: fs)).1 + (calculateFitViewBox (f :: fs)).2.2.1 - 40) ∧
      (∃ g ∈ f :: fs, (figBounds g).top = (calculateFitViewBox (f :: fs)).2.1 + 40) ∧
      (∃ g ∈ f :: fs, (figBounds g).bottom =
        (calculateFitViewBox (f :: fs)).2.1 + (calculateFitViewBox (f :: fs)).2.2.2 - 40)) := by
  refine ⟨rfl, ?_⟩
  intro f fs
  set Lm := (fs.map (fun g => (figBounds g).left)).foldl min (figBounds f).left with hLm
  set Rm := (fs.map (fun g => (figBounds g).right)).foldl max (figBounds f).right with hRm
  set Tm := (fs.map (fun g => (figBounds g).top)).foldl min (figBounds f).top with hTm
  set Bm := (fs.map (fun g => (figBounds g).bottom)).foldl max (figBounds f).bottom with hBm
  have hLle : ∀ g ∈ f :: fs, Lm ≤ (figBounds g).left := by
    intro g hg
    rcases List.mem_cons.mp hg with h | h
    · subst h
      exact foldl_min_le_init _ _
    · exact foldl_min_le_mem (List.mem_map_of_mem _ h) _
  have hRge : ∀ g ∈ f :: fs, (figBounds g).right ≤ Rm := by
    intro g hg
    rcases List.mem_cons.mp hg with h | h
    · subst h
      exact le_foldl_max_init _ _
    · exact mem_le_foldl_max (List.mem_map_of_mem _ h) _
  have hTle : ∀ g ∈ f :: fs, Tm ≤ (figBounds g).top := by
    intro g hg
    rcases List.mem_cons.mp hg with h | h
    · subst h
      exact foldl_min_le_init _ _
    · exact foldl_min_le_mem (List.mem_map_of_mem _ h) _
  have hBge : ∀ g ∈ f :: fs, (figBounds g).bottom ≤ Bm := by
    intro g hg
    rcases List.mem_cons.mp hg with h | h
    · subst h
      exact le_foldl_max_init _ _
    · exact mem_le_foldl_max (List.mem_map_of_mem _ h) _
  have hW : 0 < Rm - Lm := by
    have h1 := hLle f (List.mem_cons_self f fs)
    have h2 := hRge f (List.mem_cons_self f fs)
    have h3 := figBounds_width_pos f
    linarith
  have hH : 0 < Bm - Tm := by
    have h1 := hTle f (List.mem_cons_self f fs)
    have h2 := hBge f (List.mem_cons_self f fs)
    have h3 := figBounds_height_pos f
    linarith
  have hbox : calculateFitViewBox (f :: fs) = (Lm - 40, Tm - 40, Rm - Lm + 80, Bm - Tm + 80) := by
    show (let b := figBounds f
      let acc := fs.foldl vbStep (b.left, b.right, b.top, b.bottom)
      let contentWidth := acc.2.1 - acc.1
      let contentHeight := acc.2.2.2 - acc.2.2.1
      if contentWidth ≤ 0 ∨ contentHeight ≤ 0 then ((0:ℚ), (0:ℚ), (800:ℚ), (400:ℚ))
      else (acc.1 - 40, acc.2.2.1 - 40, contentWidth + 80, contentHeight + 80)) = _
    simp only []
    rw [vbFold_proj]
    rw [if_neg (by push_neg; exact ⟨by rw [← hLm, ← hRm]; linarith, by rw [← hTm, ← hBm]; linarith⟩)]
  rw [hbox]
  refine ⟨?_, ?_, ?_, ?_, ?_⟩
  · intro g hg
    refine ⟨?_, ?_, ?_, ?_⟩
    · have := hLle g hg
      simp only []
      linarith
    · have := hRge g hg
      simp only []
      linarith
    · have := hTle g hg
      simp only []
      linarith
    · have := hBge g hg
      simp only []
      linarith
  · rcases foldl_min_eq_init_or_mem (fs.map (fun g => (figBounds g).left)) (figBounds f).left with h | h
    · exact ⟨f, List.mem_cons_self f fs, by rw [← hLm] at h; simp only []; linarith [h.symm.le, h.le]⟩
    · rw [← hLm] at h
      obtain ⟨g, hgmem, hg⟩ := List.mem_map.mp h
      exact ⟨g, List.mem_cons_of_mem f hgmem, by simp only []; linarith [hg.le, hg.ge]⟩
  · rcases foldl_max_eq_init_or_mem (fs.map (fun g => (figBounds g).right)) (figBounds f).right with h | h
    · exact ⟨f, List.mem_cons_self f fs, by rw [← hRm] at h; simp only []; linarith [h.symm.le, h.le]⟩
    · rw [← hRm] at h
      obtain ⟨g, hgmem, hg⟩ := List.mem_map.mp h
      exact ⟨g, List.mem_cons_of_mem f hgmem, by simp only []; linarith [hg.le, hg.ge]⟩
  · rcases foldl_min_eq_init_or_mem (fs.map (fun g => (figBounds g).top)) (figBounds f).top with h | h
    · exact ⟨f, List.mem_cons_self f fs, by rw [← hTm] at h; simp only []; linarith [h.symm.le, h.le]⟩
    · rw [← hTm] at h
      obtain ⟨g, hgmem, hg⟩ := List.mem_map.mp h
      exact ⟨g, List.mem_cons_of_mem f hgmem, by simp only []; linarith [hg.le, hg.ge]⟩
  · rcases foldl_max_eq_init_or_mem (fs.map (fun g => (figBounds g).bottom)) (figBounds f).bottom with h | h
    · exact ⟨f, List.mem_cons_self f fs, by rw [← hBm] at h; simp only []; linarith [h.symm.le, h.le]⟩
    · rw [← hBm] at h
      obtain ⟨g, hgmem, hg⟩ := List.mem_map.mp h
      exact ⟨g, List.mem_cons_of_mem f hgmem, by simp only []; linarith [hg.le, hg.ge]⟩

/-- C6 witness: for a single circle the viewBox left edge sits 40 units left
of the figure's left extent. -/
theorem calculateFitViewBox_spec_witness :
    (calculateFitViewBox [exCircleA]).1 + 40 ≤ (figBounds exCircleA).left :=
  ((calculateFitViewBox_spec.2 exCircleA []).1 exCircleA (by simp)).1

/-- C9: with positive width and height and an external point distinct from
the center, the anchor lies on the rectangle boundary; the top or bottom
edge is chosen exactly when the scaled vertical offset dominates, otherwise
the left or right edge; and the vertical and horizontal limiting cases
return the respective edge midpoints. -/
theorem getIntersectionPoint_spec (cx cy width height px py : ℚ)
    (hw : 0 < width) (hh : 0 < height) (hne : (px, py) ≠ (cx, cy)) :
    ((|(getIntersectionPoint (cx, cy) width height (px, py)).1 - cx| ≤ width / 2 ∧
      |(getIntersectionPoint (cx, cy) width height (px, py)).2 - cy| = height / 2) ∨
     (|(getIntersectionPoint (cx, cy) width height (px, py)).1 - cx| = width / 2 ∧
      |(getIntersectionPoint (cx, cy) width height (px, py)).2 - cy| ≤ height / 2)) ∧
    (|py - cy| * (width / 2) > |px - cx| * (height / 2) →
      (getIntersectionPoint (cx, cy) width height (px, py)).2 =
        cy + (if py - cy > 0 then height / 2 else -(height / 2))) ∧
    (¬ (|py - cy| * (width / 2) > |px - cx| * (height / 2)) →
      (getIntersectionPoint (cx, cy) width height (px, py)).1 =
        cx + (if px - cx > 0 then width / 2 else -(width / 2))) ∧
    (px = cx →
      getIntersectionPoint (cx, cy) width height (px, py) =
        (cx, cy + (if py - cy > 0 then height / 2 else -(height / 2)))) ∧
    (py = cy →
      getIntersectionPoint (cx, cy) width height (px, py) =
        (cx + (if px - cx > 0 then width / 2 else -(width / 2)), cy)) := by
  have hne2 : ¬ ((px, py).1 - (cx, cy).1 = 0 ∧ (px, py).2 - (cx, cy).2 = 0) := by
    rintro ⟨h1, h2⟩
    simp only [] at h1 h2
    exact hne (Prod.ext (by linarith) (by linarith))
  by_cases hguard : |py - cy| * (width / 2) > |px - cx| * (height / 2)
  · have hdy : py - cy ≠ 0 := by
      intro h
      rw [h] at hguard
      simp only [abs_zero, zero_mul] at hguard
      exact absurd hguard (not_lt.mpr (by positivity))
    have hp : getIntersectionPoint (cx, cy) width height (px, py) =
        (cx + (if py - cy > 0 then height / 2 else -(height / 2)) * (px - cx) / (py - cy),
         cy + (if py - cy > 0 then height / 2 else -(height / 2))) := by
      unfold getIntersectionPoint
      rw [if_neg hne2]
      simp only []
      rw [if_pos hguard, add_sub_cancel_left, div_div_eq_mul_div]
    have habs_t : |(if py - cy > 0 then height / 2 else -(height / 2))| = height / 2 := by
      split
      · exact abs_of_pos (by linarith)
      · rw [abs_neg]
        exact abs_of_pos (by linarith)
    refine ⟨?_, ?_, ?_, ?_, ?_⟩
    · left
      constructor
      · rw [hp]
        simp only []
        rw [add_sub_cancel_left, abs_div, abs_mul, habs_t,
          div_le_iff₀ (abs_pos.mpr hdy)]
        nlinarith [hguard]
      · rw [hp]
        simp only []
        rw [add_sub_cancel_left, habs_t]
    · intro _
      rw [hp]
    · intro hg2
      exact absurd hguard hg2
    · intro hx
      rw [hp]
      have h0 : px - cx = 0 := by rw [hx]; ring
      rw [h0]
      simp
    · intro hy
      exact absurd (by rw [hy]; ring : py - cy = 0) hdy
  · have hdx : px - cx ≠ 0 := by
      intro h
      have hdy : py - cy ≠ 0 := fun h2 => hne2 ⟨h, h2⟩
      push_neg at hguard
      rw [h] at hguard
      simp only [abs_zero, zero_mul] at hguard
      have hpos : 0 < |py - cy| * (width / 2) :=
        mul_pos (abs_pos.mpr hdy) (by linarith)
      linarith
    have hp : getIntersectionPoint (cx, cy) width height (px, py) =
        (cx + (if px - cx > 0 then width / 2 else -(width / 2)),
         cy + (if px - cx > 0 then width / 2 else -(width / 2)) * ((py - cy) / (px - cx))) := by
      unfold getIntersectionPoint
      rw [if_neg hne2]
      simp only []
      rw [if_neg hguard, add_sub_cancel_left]
    have habs_s : |(if px - cx > 0 then width / 2 else -(width / 2))| = width / 2 := by
      split
      · exact abs_of_pos (by linarith)
      · rw [abs_neg]
        exact abs_of_pos (by linarith)
    push_neg at hguard
    refine ⟨?_, ?_, ?_, ?_, ?_⟩
    · right
      constructor
      · rw [hp]
        simp only []
        rw [add_sub_cancel_left, habs_s]
      · rw [hp]
        simp only []
        rw [add_sub_cancel_left, abs_mul, abs_div, habs_s, ← mul_div_assoc,
          div_le_iff₀ (abs_pos.mpr hdx)]
        nlinarith [hguard]
    · intro hg2
      exact absurd hg2 (not_lt.mpr hguard)
    · intro _
      rw [hp]
    · intro hx
      exact absurd (by rw [hx]; ring : px - cx = 0) hdx
    · intro hy
      rw [hp]
      have h0 : py - cy = 0 := by rw [hy]; ring
      rw [h0]
      simp

/-- C9 witness: the vertical limiting case returns the bottom-edge midpoint
without any division-by-zero failure. -/
theorem getIntersectionPoint_spec_witness :
    getIntersectionPoint (0, 0) 100 60 (0, 70) = (0, 30) := by
  have h := (getIntersectionPoint_spec 0 0 100 60 0 70 (by norm_num) (by norm_num)
    (by decide)).2.2.2.1 rfl
  norm_num at h
  exact h

lemma figureRadii_pos (t : DiagramFigureType) : (0:ℚ) < figureRadii t := by
  cases t <;> norm_num [figureRadii]

lemma euclDist_def (p q : ℝ × ℝ) :
    euclDist p q =
      Real.sqrt ((q.1 - p.1) * (q.1 - p.1) + (q.2 - p.2) * (q.2 - p.2)) := rfl

lemma arrowSegment_eq (source target : DiagramFigure) :
    arrowSegment source target =
      (if euclDist (figureCenter source) (figureCenter target) = 0 then none
       else if euclDist (figureCenter source) (figureCenter target) ≤
           ((figureRadii source.figureType : ℚ) : ℝ) + ((figureRadii target.figureType : ℚ) : ℝ)
         then none
       else
         some
           ((((source.position.x : ℚ) : ℝ) +
               (((target.position.x : ℚ) : ℝ) - ((source.position.x : ℚ) : ℝ)) *
                 ((figureRadii source.figureType : ℚ) : ℝ) /
                 euclDist (figureCenter source) (figureCenter target),
             ((source.position.y : ℚ) : ℝ) +
               (((target.position.y : ℚ) : ℝ) - ((source.position.y : ℚ) : ℝ)) *
                 ((figureRadii source.figureType : ℚ) : ℝ) /
                 euclDist (figureCenter source) (figureCenter target)),
            (((target.position.x : ℚ) : ℝ) -
               (((target.position.x : ℚ) : ℝ) - ((source.position.x : ℚ) : ℝ)) *
                 ((figureRadii target.figureType : ℚ) : ℝ) /
                 euclDist (figureCenter source) (figureCenter target),
             ((target.position.y : ℚ) : ℝ) -
               (((target.position.y : ℚ) : ℝ) - ((source.position.y : ℚ) : ℝ)) *
                 ((figureRadii target.figureType : ℚ) : ℝ) /
                 euclDist (figureCenter source) (figureCenter target)))) := rfl

lemma euclDist_scaled (c1 c2 u v r d : ℝ) (hd : u * u + v * v = d * d)
    (hr : 0 ≤ r) (hdpos : 0 < d) :
    euclDist (c1, c2) (c1 + u * r / d, c2 + v * r / d) = r := by
  rw [euclDist_def]
  simp only [add_sub_cancel_left]
  have key : (u * r / d) * (u * r / d) + (v * r / d) * (v * r / d) = r * r := by
    field_simp
    linear_combination (r * r) * hd
  rw [key, Real.sqrt_mul_self hr]

/-- C1: for an arrow whose endpoints resolve, the segment is null whenever
the center distance is zero or at most the sum of the two collision radii
(the arrow itself staying in the state), and otherwise the segment's
endpoints lie on the center-to-center line at exactly the source radius
from the source center and the target radius from the target center. -/
theorem arrowSegment_spec (st : DiagramState) (a : DiagramArrow)
    (source target : DiagramFigure)
    (ha : a ∈ st.arrows)
    (_hs : st.figures.find? (fun f => f.id == a.sourceId) = some source)
    (_ht : st.figures.find? (fun f => f.id == a.targetId) = some target) :
    (euclDist (figureCenter source) (figureCenter target) = 0 ∨
      euclDist (figureCenter source) (figureCenter target) ≤
        ((figureRadii source.figureType : ℚ) : ℝ) + ((figureRadii target.figureType : ℚ) : ℝ) →
      arrowSegment source target = none ∧ a ∈ st.arrows) ∧
    (((figureRadii source.figureType : ℚ) : ℝ) + ((figureRadii target.figureType : ℚ) : ℝ) <
        euclDist (figureCenter source) (figureCenter target) →
      ∃ ps pe : ℝ × ℝ, arrowSegment source target = some (ps, pe) ∧
        euclDist (figureCenter source) ps = ((figureRadii source.figureType : ℚ) : ℝ) ∧
        euclDist (figureCenter target) pe = ((figureRadii target.figureType : ℚ) : ℝ) ∧
        ∃ mu nu : ℝ, 0 ≤ mu ∧ mu ≤ 1 ∧ 0 ≤ nu ∧ nu ≤ 1 ∧
          ps = ((figureCenter source).1 + mu * ((figureCenter target).1 - (figureCenter source).1),
                (figureCenter source).2 + mu * ((figureCenter target).2 - (figureCenter source).2)) ∧
          pe = ((figureCenter source).1 + nu * ((figureCenter target).1 - (figureCenter source).1),
                (figureCenter source).2 + nu * ((figureCenter target).2 - (figureCenter source).2))) := by
  have hrS : (0:ℝ) < ((figureRadii source.figureType : ℚ) : ℝ) := by
    exact_mod_cast figureRadii_pos source.figureType
  have hrT : (0:ℝ) < ((figureRadii target.figureType : ℚ) : ℝ) := by
    exact_mod_cast figureRadii_pos target.figureType
  constructor
  · intro h
    refine ⟨?_, ha⟩
    rw [arrowSegment_eq]
    rcases h with h0 | hle
    · rw [if_pos h0]
    · by_cases h0 : euclDist (figureCenter source) (figureCenter target) = 0
      · rw [if_pos h0]
      · rw [if_neg h0, if_pos hle]
  · intro hlt
    have hdpos : 0 < euclDist (figureCenter source) (figureCenter target) := by
      linarith
    have hd0 : euclDist (figureCenter source) (figureCenter target) ≠ 0 := ne_of_gt hdpos
    rw [arrowSegment_eq, if_neg hd0, if_neg (not_le.mpr hlt)]
    have hsum : (((target.position.x : ℚ) : ℝ) - ((source.position.x : ℚ) : ℝ)) *
          (((target.position.x : ℚ) : ℝ) - ((source.position.x : ℚ) : ℝ)) +
        (((target.position.y : ℚ) : ℝ) - ((source.position.y : ℚ) : ℝ)) *
          (((target.position.y : ℚ) : ℝ) - ((source.position.y : ℚ) : ℝ)) =
        euclDist (figureCenter source) (figureCenter target) *
          euclDist (figureCenter source) (figureCenter target) := by
      have h0 : (0:ℝ) ≤ (((target.position.x : ℚ) : ℝ) - ((source.position.x : ℚ) : ℝ)) *
            (((target.position.x : ℚ) : ℝ) - ((source.position.x : ℚ) : ℝ)) +
          (((target.position.y : ℚ) : ℝ) - ((source.position.y : ℚ) : ℝ)) *
            (((target.position.y : ℚ) : ℝ) - ((source.position.y : ℚ) : ℝ)) :=
        add_nonneg (mul_self_nonneg _) (mul_self_nonneg _)
      exact (Real.mul_self_sqrt h0).symm
    refine ⟨_, _, rfl, ?_, ?_, ?_⟩
    · exact euclDist_scaled ((source.position.x : ℚ) : ℝ) ((source.position.y : ℚ) : ℝ)
        (((target.position.x : ℚ) : ℝ) - ((source.position.x : ℚ) : ℝ))
        (((target.position.y : ℚ) : ℝ) - ((source.position.y : ℚ) : ℝ))
        ((figureRadii source.figureType : ℚ) : ℝ)
        (euclDist (figureCenter source) (figureCenter target)) hsum hrS.le hdpos
    · have hsum2 : (-((((target.position.x : ℚ) : ℝ) - ((source.position.x : ℚ) : ℝ)))) *
            (-((((target.position.x : ℚ) : ℝ) - ((source.position.x : ℚ) : ℝ)))) +
          (-((((target.position.y : ℚ) : ℝ) - ((source.position.y : ℚ) : ℝ)))) *
            (-((((target.position.y : ℚ) : ℝ) - ((source.position.y : ℚ) : ℝ)))) =
          euclDist (figureCenter source) (figureCenter target) *
            euclDist (figureCenter source) (figureCenter target) := by
        linear_combination hsum
      have h2 := euclDist_scaled ((target.position.x : ℚ) : ℝ) ((target.position.y : ℚ) : ℝ)
        (-((((target.position.x : ℚ) : ℝ) - ((source.position.x : ℚ) : ℝ))))
        (-((((target.position.y : ℚ) : ℝ) - ((source.position.y : ℚ) : ℝ))))
        ((figureRadii target.figureType : ℚ) : ℝ)
        (euclDist (figureCenter source) (figureCenter target)) hsum2 hrT.le hdpos
      have heq : (((target.position.x : ℚ) : ℝ) +
            (-((((target.position.x : ℚ) : ℝ) - ((source.position.x : ℚ) : ℝ)))) *
              ((figureRadii target.figureType : ℚ) : ℝ) /
              euclDist (figureCenter source) (figureCenter target),
          ((target.position.y : ℚ) : ℝ) +
            (-((((target.position.y : ℚ) : ℝ) - ((source.position.y : ℚ) : ℝ)))) *
              ((figureRadii target.figureType : ℚ) : ℝ) /
              euclDist (figureCenter source) (figureCenter target)) =
          (((target.position.x : ℚ) : ℝ) -
            (((target.position.x : ℚ) : ℝ) - ((source.position.x : ℚ) : ℝ)) *
              ((figureRadii target.figureType : ℚ) : ℝ) /
              euclDist (figureCenter source) (figureCenter target),
          ((target.position.y : ℚ) : ℝ) -
            (((target.position.y : ℚ) : ℝ) - ((source.position.y : ℚ) : ℝ)) *
              ((figureRadii target.figureType : ℚ) : ℝ) /
              euclDist (figureCenter source) (figureCenter target)) := by
        refine Prod.ext ?_ ?_ <;> ring
      rw [heq] at h2
      exact h2
    · refine ⟨((figureRadii source.figureType : ℚ) : ℝ) /
          euclDist (figureCenter source) (figureCenter target),
        1 - ((figureRadii target.figureType : ℚ) : ℝ) /
          euclDist (figureCenter source) (figureCenter target),
        (div_pos hrS hdpos).le, ?_, ?_, ?_, ?_, ?_⟩
      · rw [div_le_one hdpos]
        linarith
      · have h1 : ((figureRadii target.figureType : ℚ) : ℝ) /
            euclDist (figureCenter source) (figureCenter target) ≤ 1 := by
          rw [div_le_one hdpos]
          linarith
        linarith
      · have h1 : 0 ≤ ((figureRadii target.figureType : ℚ) : ℝ) /
            euclDist (figureCenter source) (figureCenter target) := (div_pos hrT hdpos).le
        linarith
      · refine Prod.ext ?_ ?_ <;> simp only [figureCenter] <;> ring
      · refine Prod.ext ?_ ?_ <;> simp only [figureCenter] <;> ring

/-- C1 witness: two circles 40 units apart (radii summing to 70) keep their
arrow in the state but yield no renderable segment. -/
theorem arrowSegment_spec_witness :
    arrowSegment exCircleA exCircleB = none ∧ exArrowAB ∈ exOverlapState.arrows := by
  have hdist : euclDist (figureCenter exCircleA) (figureCenter exCircleB) = 40 := by
    have harg : euclDist (figureCenter exCircleA) (figureCenter exCircleB) =
        Real.sqrt 1600 := by
      rw [euclDist_def]
      norm_num [figureCenter, exCircleA, exCircleB]
    rw [harg, show (1600:ℝ) = 40 ^ 2 by norm_num, Real.sqrt_sq (by norm_num : (0:ℝ) ≤ 40)]
  exact (arrowSegment_spec exOverlapState exArrowAB exCircleA exCircleB
    (by decide) (by decide) (by decide)).1
    (Or.inr (by
      rw [hdist]
      norm_num [figureRadii, exCircleA, exCircleB]))

end Mindmap
